import Mathlib

/-!
# Verification of the paper trading engine (`src/backend-api/paper_trading.py`)

A shallow embedding of the simulated brokerage order-execution engine.
Money and prices are represented as exact rationals (the reference uses binary
floating point; every property settled here is robust to that difference, and
the spec itself recommends exact arithmetic for the invariant checks).
Timestamps (`created_at`, `filled_at`, `updated_at`) carry no behavioural
content for the properties below and are omitted.  Python's `uuid4` object
identities are modelled by a monotone counter `next_id`; Python's in-place
mutation of an order object that may occur at several list positions is
modelled by rewriting every list entry that carries the mutated order's id
(`syncById`), which is faithful because distinct orders always receive
distinct ids.
-/

namespace PaperTrading

inductive OrderType where
  | MARKET
  | LIMIT
  | STOP
  | STOP_LIMIT
deriving DecidableEq, Repr

inductive OrderStatus where
  | PENDING
  | FILLED
  | PARTIALLY_FILLED
  | CANCELLED
  | REJECTED
deriving DecidableEq, Repr

inductive OrderSide where
  | BUY
  | SELL
deriving DecidableEq, Repr

structure PaperOrder where
  id : Nat
  symbol : String
  side : OrderSide
  order_type : OrderType
  quantity : ℚ
  price : Option ℚ
  stop_price : Option ℚ
  status : OrderStatus
  filled_price : Option ℚ
  filled_quantity : ℚ
  commission : ℚ
  portfolio_id : Nat
deriving DecidableEq, Repr

structure PaperExecution where
  order_id : Nat
  symbol : String
  side : OrderSide
  quantity : ℚ
  price : ℚ
  commission : ℚ
deriving DecidableEq, Repr

structure PaperPosition where
  symbol : String
  quantity : ℚ
  avg_price : ℚ
  market_value : ℚ
  unrealized_pnl : ℚ
  realized_pnl : ℚ
deriving DecidableEq, Repr

/-- `PaperPosition(symbol=symbol)`: all numeric fields default to `0.0`. -/
def PaperPosition.new (sym : String) : PaperPosition :=
  { symbol := sym, quantity := 0, avg_price := 0, market_value := 0,
    unrealized_pnl := 0, realized_pnl := 0 }

structure PaperPortfolio where
  id : Nat
  name : String
  cash : ℚ
  positions : List (String × PaperPosition)
  orders : List PaperOrder
  executions : List PaperExecution
deriving DecidableEq, Repr

/-- The quote-source capability: `get_current_price` and `get_bid_ask`
(the Python provider returns `None` components on failure). -/
structure MarketData where
  get_current_price : String → Option ℚ
  get_bid_ask : String → Option ℚ × Option ℚ

/-- Python truthiness of an optional float: `None` and `0.0` are falsy
(the source guards quotes with `if not current_price`, `if not bid or not ask`). -/
def pyTruthy : Option ℚ → Bool
  | none => false
  | some q => if q = 0 then false else true

/-- `MarketDataProvider.get_bid_ask`: derives a synthetic 0.1% spread around the
current price (`spread = current_price * 0.001 / 2`). -/
def MarketDataProvider (prices : String → Option ℚ) : MarketData where
  get_current_price := prices
  get_bid_ask s :=
    match prices s with
    | some p =>
        if p = 0 then (none, none)
        else (some (p - p * (1/1000) / 2), some (p + p * (1/1000) / 2))
    | none => (none, none)

structure PaperTradingEngine where
  market_data : MarketData
  portfolios : List PaperPortfolio
  commission_per_trade : ℚ
  slippage_factor : ℚ
  next_id : Nat

/-- `PaperTradingEngine.__init__`: no commission, 0.1% slippage. -/
def mkEngine (md : MarketData) : PaperTradingEngine :=
  { market_data := md, portfolios := [], commission_per_trade := 0,
    slippage_factor := 1/1000, next_id := 0 }

/-- dict lookup `portfolio.positions.get(symbol)` -/
def getPosition : List (String × PaperPosition) → String → Option PaperPosition
  | [], _ => none
  | kv :: rest, sym => if kv.1 = sym then some kv.2 else getPosition rest sym

/-- dict store `portfolio.positions[symbol] = pos` (replace, else append in
insertion order, matching Python dict semantics) -/
def setPosition : List (String × PaperPosition) → String → PaperPosition →
    List (String × PaperPosition)
  | [], sym, pos => [(sym, pos)]
  | kv :: rest, sym, pos =>
      if kv.1 = sym then (sym, pos) :: rest else kv :: setPosition rest sym pos

/-- In-place mutation of the (unique) order object with id `u.id`: every list
slot holding that object now shows the updated value. -/
def syncById (u : PaperOrder) (o : PaperOrder) : PaperOrder :=
  if o.id = u.id then u else o

/-- `PaperTradingEngine.create_portfolio` -/
def create_portfolio (eng : PaperTradingEngine) (name : String) (initial_cash : ℚ) :
    PaperPortfolio × PaperTradingEngine :=
  let p : PaperPortfolio :=
    { id := eng.next_id, name := name, cash := initial_cash,
      positions := [], orders := [], executions := [] }
  (p, { eng with portfolios := eng.portfolios ++ [p], next_id := eng.next_id + 1 })

/-- `PaperTradingEngine._validate_order`: `none` means valid, `some reason`
mirrors `{'valid': False, 'reason': reason}`. -/
def validate_order (eng : PaperTradingEngine) (portfolio : PaperPortfolio)
    (order : PaperOrder) : Option String :=
  let current_price := eng.market_data.get_current_price order.symbol
  if pyTruthy current_price then
    let p := current_price.getD 0
    match order.side with
    | OrderSide.BUY =>
      let estimated_cost := order.quantity * p + eng.commission_per_trade
      if portfolio.cash < estimated_cost then some "Insufficient cash"
      else if order.quantity ≤ 0 then some "Invalid quantity"
      else none
    | OrderSide.SELL =>
      match getPosition portfolio.positions order.symbol with
      | none => some "Insufficient shares"
      | some pos =>
          if pos.quantity < order.quantity then some "Insufficient shares"
          else if order.quantity ≤ 0 then some "Invalid quantity"
          else none
  else some "Invalid symbol or no market data"

/-- `PaperTradingEngine._update_portfolio_position` -/
def update_portfolio_position (p : PaperPortfolio) (execution : PaperExecution) :
    PaperPortfolio :=
  let position := (getPosition p.positions execution.symbol).getD
    (PaperPosition.new execution.symbol)
  match execution.side with
  | OrderSide.BUY =>
    let total_cost := position.quantity * position.avg_price
      + execution.quantity * execution.price
    let new_quantity := position.quantity + execution.quantity
    let position :=
      { position with
          avg_price := if 0 < new_quantity then total_cost / new_quantity
                       else position.avg_price,
          quantity := new_quantity }
    -- "Clean up zero positions": abs(position.quantity) < 0.001
    let position := if |position.quantity| < 1/1000 then
        { position with quantity := 0 } else position
    { p with
        positions := setPosition p.positions execution.symbol position,
        cash := p.cash - (execution.quantity * execution.price + execution.commission) }
  | OrderSide.SELL =>
    let cost_basis := execution.quantity * position.avg_price
    let proceeds := execution.quantity * execution.price
    let realized_pnl := proceeds - cost_basis - execution.commission
    let position :=
      { position with
          realized_pnl := position.realized_pnl + realized_pnl,
          quantity := position.quantity - execution.quantity }
    let position := if |position.quantity| < 1/1000 then
        { position with quantity := 0 } else position
    { p with
        positions := setPosition p.positions execution.symbol position,
        cash := p.cash + (proceeds - execution.commission) }

/-- `PaperTradingEngine._execute_market_order` -/
def execute_market_order (eng : PaperTradingEngine) (p : PaperPortfolio)
    (order : PaperOrder) : PaperPortfolio × PaperOrder :=
  let ba := eng.market_data.get_bid_ask order.symbol
  if pyTruthy ba.1 && pyTruthy ba.2 then
    let bid := ba.1.getD 0
    let ask := ba.2.getD 0
    let execution_price :=
      match order.side with
      | OrderSide.BUY => ask + ask * eng.slippage_factor
      | OrderSide.SELL => bid - bid * eng.slippage_factor
    let execution : PaperExecution :=
      { order_id := order.id, symbol := order.symbol, side := order.side,
        quantity := order.quantity, price := execution_price,
        commission := eng.commission_per_trade }
    let p := update_portfolio_position p execution
    let o :=
      { order with
          status := OrderStatus.FILLED,
          filled_price := some execution_price,
          filled_quantity := order.quantity,
          commission := eng.commission_per_trade }
    ({ p with orders := p.orders.map (syncById o) ++ [o],
              executions := p.executions ++ [execution] }, o)
  else
    let o := { order with status := OrderStatus.REJECTED }
    ({ p with orders := p.orders.map (syncById o) ++ [o] }, o)

/-- Replace the stored portfolio carrying `p'.id` (the dict entry
`self.portfolios[pid]` mutated in place). -/
def replacePortfolio (eng : PaperTradingEngine) (p' : PaperPortfolio) :
    PaperTradingEngine :=
  { eng with portfolios := eng.portfolios.map (fun q => if q.id = p'.id then p' else q) }

/-- The freshly constructed `PaperOrder(...)` inside `place_order`
(dataclass defaults: status `PENDING`, `filled_quantity = 0.0`,
`commission = 0.0`).  The source upper-cases the symbol (`symbol.upper()`);
we treat symbols as already-normalized atoms, which is faithful because both
the order book and the quote source see the same normalized string. -/
def newOrderFor (eng : PaperTradingEngine) (portfolio_id : Nat) (symbol : String)
    (side : OrderSide) (quantity : ℚ) (order_type : OrderType)
    (price stop_price : Option ℚ) : PaperOrder :=
  { id := eng.next_id, symbol := symbol, side := side,
    order_type := order_type, quantity := quantity, price := price,
    stop_price := stop_price, status := OrderStatus.PENDING,
    filled_price := none, filled_quantity := 0, commission := 0,
    portfolio_id := portfolio_id }

/-- `PaperTradingEngine.place_order`; the `ValueError` for an unknown
portfolio id becomes `.error`. -/
def place_order (eng : PaperTradingEngine) (portfolio_id : Nat) (symbol : String)
    (side : OrderSide) (quantity : ℚ) (order_type : OrderType)
    (price stop_price : Option ℚ) :
    Except String (PaperOrder × PaperTradingEngine) :=
  match eng.portfolios.find? (fun q => decide (q.id = portfolio_id)) with
  | none => Except.error "Portfolio not found"
  | some portfolio =>
    let order := newOrderFor eng portfolio_id symbol side quantity order_type
      price stop_price
    let eng1 : PaperTradingEngine := { eng with next_id := eng.next_id + 1 }
    match validate_order eng portfolio order with
    | some _ =>
        let order := { order with status := OrderStatus.REJECTED }
        Except.ok (order,
          replacePortfolio eng1 { portfolio with orders := portfolio.orders ++ [order] })
    | none =>
        match order_type with
        | OrderType.MARKET =>
          let po := execute_market_order eng1 portfolio order
          Except.ok (po.2, replacePortfolio eng1 po.1)
        | _ =>
          Except.ok (order,
            replacePortfolio eng1 { portfolio with orders := portfolio.orders ++ [order] })

/-- `PaperTradingEngine.cancel_order` -/
def cancel_order (eng : PaperTradingEngine) (portfolio_id order_id : Nat) :
    Bool × PaperTradingEngine :=
  match eng.portfolios.find? (fun q => decide (q.id = portfolio_id)) with
  | none => (false, eng)
  | some portfolio =>
    match portfolio.orders.find? (fun o =>
        decide (o.id = order_id) &&
          (match o.status with | OrderStatus.PENDING => true | _ => false)) with
    | none => (false, eng)
    | some o =>
        let o' := { o with status := OrderStatus.CANCELLED }
        (true, replacePortfolio eng
          { portfolio with orders := portfolio.orders.map (syncById o') })

/-- The trigger test of `_process_pending_orders` (only LIMIT and STOP order
types are examined; the source compares against `order.price` /
`order.stop_price`, which are present on every order queued through the
conditional-order path). -/
def triggerCondition (order : PaperOrder) (current_price : ℚ) : Bool :=
  match order.order_type, order.side with
  | OrderType.LIMIT, OrderSide.BUY =>
      match order.price with
      | some lp => if current_price ≤ lp then true else false
      | none => false
  | OrderType.LIMIT, OrderSide.SELL =>
      match order.price with
      | some lp => if lp ≤ current_price then true else false
      | none => false
  | OrderType.STOP, OrderSide.BUY =>
      match order.stop_price with
      | some sp => if sp ≤ current_price then true else false
      | none => false
  | OrderType.STOP, OrderSide.SELL =>
      match order.stop_price with
      | some sp => if current_price ≤ sp then true else false
      | none => false
  | _, _ => false

/-- The loop body of `_process_pending_orders`.  The Python `for` iterates over
`portfolio.orders` while `_execute_market_order` appends to it; the index `i`
walks the growing list, and the fuel (chosen large enough by the caller)
bounds the recursion.  A triggered order first has its `order_type` mutated to
MARKET, then is executed. -/
def process_pending_aux (eng : PaperTradingEngine) :
    Nat → PaperPortfolio → Nat → PaperPortfolio
  | 0, p, _ => p
  | Nat.succ fuel, p, i =>
    if h : i < p.orders.length then
      let order := p.orders[i]
      match order.status with
      | OrderStatus.PENDING =>
        let cp := eng.market_data.get_current_price order.symbol
        if pyTruthy cp then
          if triggerCondition order (cp.getD 0) then
            let oM := { order with order_type := OrderType.MARKET }
            let p' := { p with orders := p.orders.map (syncById oM) }
            process_pending_aux eng fuel (execute_market_order eng p' oM).1 (i + 1)
          else process_pending_aux eng fuel p (i + 1)
        else process_pending_aux eng fuel p (i + 1)
      | _ => process_pending_aux eng fuel p (i + 1)
    else p

/-- `PaperTradingEngine._process_pending_orders`.  At most one order is
appended per processed PENDING order, so `2 * length + 1` fuel always
suffices to exhaust the (growing) list. -/
def process_pending_orders (eng : PaperTradingEngine) (p : PaperPortfolio) :
    PaperPortfolio :=
  process_pending_aux eng (2 * p.orders.length + 1) p 0

/-- `PaperTradingEngine.simulate_market_movement` (the provider price update is
a no-op; the `volatility_factor` argument is unused by the source). -/
def simulate_market_movement (eng : PaperTradingEngine) : PaperTradingEngine :=
  { eng with portfolios := eng.portfolios.map (process_pending_orders eng) }

/-- `PaperTradingEngine._update_portfolio_values` -/
def update_portfolio_values (eng : PaperTradingEngine) (p : PaperPortfolio) :
    PaperPortfolio :=
  { p with positions := p.positions.map (fun kv =>
      let position := kv.2
      if position.quantity = 0 then
        (kv.1, { position with market_value := 0, unrealized_pnl := 0 })
      else
        let cp := eng.market_data.get_current_price kv.1
        if pyTruthy cp then
          let price := cp.getD 0
          (kv.1, { position with
              market_value := position.quantity * price,
              unrealized_pnl := position.quantity * price
                - position.quantity * position.avg_price })
        else kv) }

/-- The aggregate fields of the summary dict returned by
`get_portfolio_summary` (presentation-only position/execution listings are
reduced to the data the properties below need). -/
structure PortfolioSummary where
  cash : ℚ
  total_value : ℚ
  total_unrealized_pnl : ℚ
  total_realized_pnl : ℚ
  pending_order_ids : List Nat
deriving DecidableEq, Repr

/-- `PaperTradingEngine.get_portfolio_summary`: returns `none` for an unknown
portfolio (Python returns `{}`), and persists the recomputed market values
(the positions are mutated in place). -/
def get_portfolio_summary (eng : PaperTradingEngine) (portfolio_id : Nat) :
    Option PortfolioSummary × PaperTradingEngine :=
  match eng.portfolios.find? (fun q => decide (q.id = portfolio_id)) with
  | none => (none, eng)
  | some portfolio =>
    let portfolio := update_portfolio_values eng portfolio
    let held := portfolio.positions.filter
      (fun kv => !decide (kv.2.quantity = 0))
    let total_value := portfolio.cash + (held.map (fun kv => kv.2.market_value)).sum
    let total_unrealized := (held.map (fun kv => kv.2.unrealized_pnl)).sum
    let total_realized := (portfolio.executions.map (fun e => e.commission)).sum
    (some { cash := portfolio.cash, total_value := total_value,
            total_unrealized_pnl := total_unrealized,
            total_realized_pnl := total_realized,
            pending_order_ids :=
              (portfolio.orders.filter (fun o =>
                match o.status with
                | OrderStatus.PENDING => true
                | _ => false)).map (fun o => o.id) },
     replacePortfolio eng portfolio)

/-- One trade recommendation of a rebalancing plan (attributes `symbol`,
`action`, `shares`, `current_price` accessed by the executor). -/
structure TradeRecommendation where
  symbol : String
  action : String
  shares : ℚ
  current_price : ℚ
deriving DecidableEq, Repr

/-- The phases of `plan['execution_plan']['execution_phases']` that the
executor reads (`immediate` and `end_of_day`; missing phases default to `[]`). -/
structure RebalancingPlan where
  immediate : List TradeRecommendation
  end_of_day : List TradeRecommendation
deriving DecidableEq, Repr

/-- One entry of `execution_results['orders_placed']`. -/
structure PlacedOrderRecord where
  order_id : Nat
  symbol : String
  action : String
  quantity : ℚ
  status : OrderStatus
deriving DecidableEq, Repr

structure RebalanceResult where
  success : Bool
  orders_placed : List PlacedOrderRecord
  errors : List (String × String)
  summary : Option PortfolioSummary
deriving Repr

/-- One iteration of the per-recommendation loop in
`execute_rebalancing_plan`: a raised exception lands in the error list, a
returned order (of any status) in `orders_placed`. -/
def planStep (portfolio_id : Nat) (order_type : OrderType) (useLimitPrice : Bool)
    (acc : List PlacedOrderRecord × List (String × String) × PaperTradingEngine)
    (r : TradeRecommendation) :
    List PlacedOrderRecord × List (String × String) × PaperTradingEngine :=
  let placed := acc.1
  let errs := acc.2.1
  let eng := acc.2.2
  let side := if r.action = "BUY" then OrderSide.BUY else OrderSide.SELL
  match place_order eng portfolio_id r.symbol side |r.shares| order_type
      (if useLimitPrice then some r.current_price else none) none with
  | Except.ok oe =>
      (placed ++ [{ order_id := oe.1.id, symbol := r.symbol, action := r.action,
                    quantity := r.shares, status := oe.1.status }], errs, oe.2)
  | Except.error e => (placed, errs ++ [(r.symbol, e)], eng)

/-- `PaperTradingEngine.execute_rebalancing_plan`: immediate recommendations
as MARKET orders, end-of-day ones as LIMIT orders at the recommendation's
price; `success` stays true exactly when the error list is empty. -/
def execute_rebalancing_plan (eng : PaperTradingEngine) (portfolio_id : Nat)
    (plan : RebalancingPlan) :
    Except String (RebalanceResult × PaperTradingEngine) :=
  match eng.portfolios.find? (fun q => decide (q.id = portfolio_id)) with
  | none => Except.error "Portfolio not found"
  | some _ =>
    let acc1 := plan.immediate.foldl
      (planStep portfolio_id OrderType.MARKET false) ([], [], eng)
    let acc2 := plan.end_of_day.foldl
      (planStep portfolio_id OrderType.LIMIT true) acc1
    let s := get_portfolio_summary acc2.2.2 portfolio_id
    Except.ok ({ success := acc2.2.1.isEmpty, orders_placed := acc2.1,
                 errors := acc2.2.1, summary := s.1 }, s.2)

/-- The public calls of the engine, for statements quantifying over
"any call into the engine". -/
inductive EngineCall where
  | place (portfolio_id : Nat) (symbol : String) (side : OrderSide) (quantity : ℚ)
      (order_type : OrderType) (price stop_price : Option ℚ)
  | cancel (portfolio_id order_id : Nat)
  | tick
  | rebalance (portfolio_id : Nat) (plan : RebalancingPlan)
  | summary (portfolio_id : Nat)

def engineStep (eng : PaperTradingEngine) : EngineCall → PaperTradingEngine
  | EngineCall.place pid s sd q t pr sp =>
      match place_order eng pid s sd q t pr sp with
      | Except.ok oe => oe.2
      | Except.error _ => eng
  | EngineCall.cancel pid oid => (cancel_order eng pid oid).2
  | EngineCall.tick => simulate_market_movement eng
  | EngineCall.rebalance pid plan =>
      match execute_rebalancing_plan eng pid plan with
      | Except.ok re => re.2
      | Except.error _ => eng
  | EngineCall.summary pid => (get_portfolio_summary eng pid).2

/-- The signed contribution of one execution: BUY positive, SELL negative. -/
def execSigned (e : PaperExecution) : ℚ :=
  match e.side with
  | OrderSide.BUY => e.quantity
  | OrderSide.SELL => -e.quantity

/-- Signed sum (BUY positive, SELL negative) of the filled quantities of the
executions recorded for one symbol. -/
def signedExecutionSum (sym : String) : List PaperExecution → ℚ
  | [] => 0
  | e :: rest =>
      (if e.symbol = sym then execSigned e else 0) + signedExecutionSum sym rest

/-- The stored quantity for a symbol (0 when no position exists). -/
def quantityOf (p : PaperPortfolio) (sym : String) : ℚ :=
  ((getPosition p.positions sym).map (fun pos => pos.quantity)).getD 0

/-- Iterated market ticks, each against a (possibly different) quote feed:
price movement between ticks is arbitrary. -/
def tickSeq : List MarketData → PaperTradingEngine → PaperTradingEngine
  | [], eng => eng
  | m :: ms, eng =>
      tickSeq ms (simulate_market_movement { eng with market_data := m })

/-! ## Concrete scenarios

A quote feed with AAPL at 100, used by several scenarios below; the built-in
provider derives bid/ask 99.95 / 100.05 from it. -/

def pricesA : String → Option ℚ := fun s => if s = "AAPL" then some 100 else none

def engA0 : PaperTradingEngine := mkEngine (MarketDataProvider pricesA)

/-- A portfolio created with (non-negative) cash 100. -/
def engA1 : PaperTradingEngine := (create_portfolio engA0 "t" 100).2

/-- `BUY 1 AAPL` as a MARKET order against exactly enough cash for the
validation estimate `1 × 100 + 0`. -/
def runA : Except String (PaperOrder × PaperTradingEngine) :=
  place_order engA1 0 "AAPL" OrderSide.BUY 1 OrderType.MARKET none none

/-- The engine state after `runA`. -/
def engA2 : PaperTradingEngine :=
  match runA with
  | Except.ok x => x.2
  | Except.error _ => engA1

/-- A portfolio created with cash 1000 on the same feed. -/
def engB1 : PaperTradingEngine := (create_portfolio engA0 "t" 1000).2

/-- `BUY 1.0005 AAPL` … -/
def engB2 : PaperTradingEngine :=
  match place_order engB1 0 "AAPL" OrderSide.BUY (2001/2000) OrderType.MARKET
      none none with
  | Except.ok x => x.2
  | Except.error _ => engB1

/-- … then `SELL 1 AAPL`: the remaining 0.0005 shares are snapped to zero. -/
def engB3 : PaperTradingEngine :=
  match place_order engB2 0 "AAPL" OrderSide.SELL 1 OrderType.MARKET none none with
  | Except.ok x => x.2
  | Except.error _ => engB2

/-- `BUY 1 AAPL` then `SELL 1 AAPL` on the cash-1000 portfolio: a committed
round trip whose realized loss is the bid/ask spread plus slippage (−0.3). -/
def engC2 : PaperTradingEngine :=
  match place_order engB1 0 "AAPL" OrderSide.BUY 1 OrderType.MARKET none none with
  | Except.ok x => x.2
  | Except.error _ => engB1

def engC3 : PaperTradingEngine :=
  match place_order engC2 0 "AAPL" OrderSide.SELL 1 OrderType.MARKET none none with
  | Except.ok x => x.2
  | Except.error _ => engC2

/-- A quote source that reports a current price but no bid/ask (a partially
failing feed, per the spec an admissible implementation of the capability). -/
def advMarket : MarketData :=
  { get_current_price := fun _ => some 100, get_bid_ask := fun _ => (none, none) }

def engD0 : PaperTradingEngine := mkEngine advMarket

def engD1 : PaperTradingEngine := (create_portfolio engD0 "p" 10000).2

/-- `BUY 1 XYZ LIMIT @ 100` is queued (validation sees a price): PENDING. -/
def engD2 : PaperTradingEngine :=
  match place_order engD1 0 "XYZ" OrderSide.BUY 1 OrderType.LIMIT (some 100) none with
  | Except.ok x => x.2
  | Except.error _ => engD1

/-- A market tick: the limit triggers (100 ≤ 100) but bid/ask is unavailable,
so `_execute_market_order` rejects the formerly pending order. -/
def engD3 : PaperTradingEngine := simulate_market_movement engD2

/-- A queued `STOP_LIMIT` order on the same portfolio. -/
def engF2 : PaperTradingEngine :=
  match place_order engD1 0 "XYZ" OrderSide.BUY 1 OrderType.STOP_LIMIT (some 90)
      (some 110) with
  | Except.ok x => x.2
  | Except.error _ => engD1

/-- Feed for the rebalancing scenario: AAPL and MSFT both quoted at 100. -/
def pricesE : String → Option ℚ :=
  fun s => if s = "AAPL" then some 100 else if s = "MSFT" then some 100 else none

def engE1 : PaperTradingEngine :=
  (create_portfolio (mkEngine (MarketDataProvider pricesE)) "t" 100000).2

/-- One immediate SELL exceeding the held shares (0 of MSFT) and one valid
immediate BUY. -/
def planE : RebalancingPlan :=
  { immediate := [⟨"MSFT", "SELL", 10, 100⟩, ⟨"AAPL", "BUY", 10, 100⟩],
    end_of_day := [] }

def runE : Except String (RebalanceResult × PaperTradingEngine) :=
  execute_rebalancing_plan engE1 0 planE

/-! ## C1 -/

/-- C1 (code bug): a portfolio created with non-negative cash 100 ends with
negative cash after a single committed `place_order` BUY.  The validation
estimate `quantity × current_price + commission` ignores the half-spread and
slippage that `_execute_market_order` charges, so the fill at
`ask × 1.001 = 100.15005` overdraws the account to −0.15005. -/
theorem buy_at_exact_cash_overdraws :
    (0 : ℚ) ≤ 100 ∧
    runA.toOption.map (fun x => x.1.status) = some OrderStatus.FILLED ∧
    engA2.portfolios.map (fun p => p.cash) = [-3001/20000] ∧
    (-3001/20000 : ℚ) < 0 := by
  iterate 8
    (try simp [engA2, runA, engA1, engA0, mkEngine, create_portfolio, place_order, newOrderFor,
      validate_order, execute_market_order, update_portfolio_position, replacePortfolio,
      MarketDataProvider, pricesA, pyTruthy, getPosition, setPosition, syncById,
      PaperPosition.new, List.find?, Except.toOption, abs]
     <;> try norm_num [runA, engA1, engA0, mkEngine, create_portfolio, place_order, newOrderFor,
      validate_order, execute_market_order, update_portfolio_position, replacePortfolio,
      MarketDataProvider, pricesA, pyTruthy, getPosition, setPosition, syncById,
      PaperPosition.new, List.find?, Except.toOption, abs])

/-! ## C2 -/

/-- C2 (counterexample): with cash 100, reference price 100, slippage 0.1% and
zero commission, the claim's required cash `1 × 100 × (1 + 0.001) + 0 = 100.1`
exceeds the available cash, so the claim demands REJECTED — but the engine
validates against `quantity × price + commission = 100` and fills the order. -/
theorem cash_check_ignores_slippage_cex :
    engA1.portfolios.map (fun p => p.cash) = [100] ∧
    (100 : ℚ) < 1 * 100 * (1 + engA1.slippage_factor) + engA1.commission_per_trade ∧
    runA.toOption.map (fun x => x.1.status) = some OrderStatus.FILLED ∧
    OrderStatus.FILLED ≠ OrderStatus.REJECTED := by
  iterate 8
    (try simp [runA, engA1, engA0, mkEngine, create_portfolio, place_order, newOrderFor,
      validate_order, execute_market_order, update_portfolio_position, replacePortfolio,
      MarketDataProvider, pricesA, pyTruthy, getPosition, setPosition, syncById,
      PaperPosition.new, List.find?, Except.toOption, abs]
     <;> try norm_num [runA, engA1, engA0, mkEngine, create_portfolio, place_order, newOrderFor,
      validate_order, execute_market_order, update_portfolio_position, replacePortfolio,
      MarketDataProvider, pricesA, pyTruthy, getPosition, setPosition, syncById,
      PaperPosition.new, List.find?, Except.toOption, abs])

/-- C2 (amended, proved): with market data available for the symbol, a BUY
order is rejected for insufficient cash exactly when
`cash < quantity × reference_price + commission` — the code's estimate does
not include the slippage factor. -/
theorem insufficient_cash_iff (eng : PaperTradingEngine)
    (portfolio : PaperPortfolio) (order : PaperOrder) (p : ℚ)
    (hp : eng.market_data.get_current_price order.symbol = some p) (hp0 : p ≠ 0)
    (hside : order.side = OrderSide.BUY) :
    validate_order eng portfolio order = some "Insufficient cash"
      ↔ portfolio.cash < order.quantity * p + eng.commission_per_trade := by
  unfold validate_order
  rw [hp]
  simp only [pyTruthy, hp0, if_false, if_true, Option.getD_some, hside]
  split_ifs with h1 h2 <;> simp_all

/-- A quote feed with fixed price 100 and bid/ask 99.95 / 100.05, used to
instantiate the parametric theorems. -/
def wMarket : MarketData :=
  { get_current_price := fun _ => some 100,
    get_bid_ask := fun _ => (some (1999/20), some (2001/20)) }

def wPortfolio : PaperPortfolio :=
  { id := 0, name := "w", cash := 150, positions := [], orders := [],
    executions := [] }

def wBuyOrder : PaperOrder :=
  { id := 7, symbol := "AAPL", side := OrderSide.BUY,
    order_type := OrderType.MARKET, quantity := 2, price := none,
    stop_price := none, status := OrderStatus.PENDING, filled_price := none,
    filled_quantity := 0, commission := 0, portfolio_id := 0 }

def wEngine : PaperTradingEngine :=
  { market_data := wMarket, portfolios := [wPortfolio],
    commission_per_trade := 0, slippage_factor := 1/1000, next_id := 8 }

theorem insufficient_cash_iff_witness :
    validate_order wEngine wPortfolio wBuyOrder = some "Insufficient cash"
      ↔ wPortfolio.cash < wBuyOrder.quantity * 100 + wEngine.commission_per_trade :=
  insufficient_cash_iff wEngine wPortfolio wBuyOrder 100 rfl (by norm_num) rfl

/-! ## C3 -/

/-- C3 (counterexample): after committed executions BUY 1.0005 and SELL 1 of
AAPL, the stored position quantity is 0 (the `< 0.001` clean-up snapped it)
while the signed sum of the executed quantities is 0.0005. -/
theorem position_quantity_zero_snap_cex :
    engB3.portfolios.map (fun p => quantityOf p "AAPL") = [0] ∧
    engB3.portfolios.map (fun p => signedExecutionSum "AAPL" p.executions)
      = [1/2000] ∧
    (0 : ℚ) ≠ 1/2000 := by
  iterate 8
    (try simp [engB3, engB2, engB1, engA0, mkEngine, create_portfolio, place_order,
      newOrderFor, validate_order, execute_market_order, update_portfolio_position,
      replacePortfolio, MarketDataProvider, pricesA, pyTruthy, getPosition, setPosition,
      syncById, PaperPosition.new, List.find?, quantityOf, signedExecutionSum,
      execSigned, abs]
     <;> try norm_num [engB3, engB2, engB1, engA0, mkEngine, create_portfolio, place_order,
      newOrderFor, validate_order, execute_market_order, update_portfolio_position,
      replacePortfolio, MarketDataProvider, pricesA, pyTruthy, getPosition, setPosition,
      syncById, PaperPosition.new, List.find?, quantityOf, signedExecutionSum,
      execSigned, abs])

/-! ## C3 (amended) -/

theorem getPosition_set_self (ps : List (String × PaperPosition)) (sym : String)
    (pos : PaperPosition) : getPosition (setPosition ps sym pos) sym = some pos := by
  induction ps with
  | nil => simp [setPosition, getPosition]
  | cons kv rest ih =>
      by_cases h : kv.1 = sym
      · simp [setPosition, getPosition, h]
      · simp [setPosition, getPosition, h, ih]

theorem getPosition_set_other (ps : List (String × PaperPosition))
    (sym sym' : String) (pos : PaperPosition) (h : sym' ≠ sym) :
    getPosition (setPosition ps sym pos) sym' = getPosition ps sym' := by
  induction ps with
  | nil => simp [setPosition, getPosition, Ne.symm h]
  | cons kv rest ih =>
      by_cases hk : kv.1 = sym
      · simp [setPosition, getPosition, hk, Ne.symm h]
      · simp [setPosition, getPosition, hk, ih]

/-- The quantity stored for a symbol after one committed execution: untouched
for other symbols; for the execution's symbol, the signed update followed by
the `< 0.001` zero-snap. -/
theorem quantityOf_update (p : PaperPortfolio) (e : PaperExecution)
    (sym : String) :
    quantityOf (update_portfolio_position p e) sym =
      if e.symbol = sym then
        (if |quantityOf p sym + execSigned e| < 1/1000 then 0
         else quantityOf p sym + execSigned e)
      else quantityOf p sym := by
  obtain ⟨oid, esym, eside, eq, ep, ec⟩ := e
  by_cases hsym : esym = sym
  · subst hsym
    cases eside <;> cases hget : getPosition p.positions esym <;>
      simp [update_portfolio_position, quantityOf, execSigned, hget,
        getPosition_set_self, PaperPosition.new, sub_eq_add_neg] <;>
      split_ifs <;> rfl
  · cases eside <;> cases hget : getPosition p.positions esym <;>
      simp [update_portfolio_position, quantityOf, execSigned, hget, hsym,
        getPosition_set_other _ _ _ _ (Ne.symm hsym)]

theorem foldl_update_quantity (sym : String) :
    ∀ (execs : List PaperExecution) (p : PaperPortfolio) (s : ℚ),
      quantityOf p sym = s →
      (∀ n, n ≤ execs.length →
        s + signedExecutionSum sym (execs.take n) = 0 ∨
        1/1000 ≤ |s + signedExecutionSum sym (execs.take n)|) →
      quantityOf (execs.foldl update_portfolio_position p) sym
        = s + signedExecutionSum sym execs := by
  intro execs
  induction execs with
  | nil =>
      intro p s hq _
      simpa [signedExecutionSum] using hq
  | cons e rest ih =>
      intro p s hq hcond
      rw [List.foldl_cons]
      by_cases hsym : e.symbol = sym
      · have h1 := hcond 1 (by simp)
        simp only [List.take_succ_cons, List.take_zero, signedExecutionSum,
          if_pos hsym, add_zero] at h1
        have hq' : quantityOf (update_portfolio_position p e) sym
            = s + execSigned e := by
          rw [quantityOf_update, if_pos hsym, hq]
          rcases h1 with h | h
          · rw [h]
            norm_num
          · rw [if_neg (not_lt.mpr h)]
        have hc' : ∀ n, n ≤ rest.length →
            (s + execSigned e) + signedExecutionSum sym (rest.take n) = 0 ∨
            1/1000 ≤ |(s + execSigned e) + signedExecutionSum sym (rest.take n)| := by
          intro n hn
          have := hcond (n+1) (by simpa using Nat.succ_le_succ hn)
          simp only [List.take_succ_cons, signedExecutionSum, if_pos hsym] at this
          rw [add_assoc]
          exact this
        rw [ih _ _ hq' hc', signedExecutionSum, if_pos hsym]
        ring
      · have hq' : quantityOf (update_portfolio_position p e) sym = s := by
          rw [quantityOf_update, if_neg hsym, hq]
        have hc' : ∀ n, n ≤ rest.length →
            s + signedExecutionSum sym (rest.take n) = 0 ∨
            1/1000 ≤ |s + signedExecutionSum sym (rest.take n)| := by
          intro n hn
          have := hcond (n+1) (by simpa using Nat.succ_le_succ hn)
          simpa [List.take_succ_cons, signedExecutionSum, hsym] using this
        rw [ih _ _ hq' hc', signedExecutionSum, if_neg hsym]
        ring

/-- C3 (amended, proved): starting from a portfolio with no stored quantity
in a symbol, after any sequence of committed executions the stored position
quantity equals the signed sum of the executed quantities for that symbol,
provided each prefix of that signed sum is either exactly 0 or at least
0.001 in absolute value (the zero-snap fires exactly on the remaining
sub-0.001 dust). -/
theorem position_quantity_eq_signed_sum (p : PaperPortfolio) (sym : String)
    (execs : List PaperExecution) (h0 : quantityOf p sym = 0)
    (hpre : ∀ n, n ≤ execs.length →
      signedExecutionSum sym (execs.take n) = 0 ∨
      1/1000 ≤ |signedExecutionSum sym (execs.take n)|) :
    quantityOf (execs.foldl update_portfolio_position p) sym
      = signedExecutionSum sym execs := by
  have := foldl_update_quantity sym execs p 0 h0 (by simpa using hpre)
  simpa using this

def wExec1 : PaperExecution :=
  { order_id := 1, symbol := "AAPL", side := OrderSide.BUY, quantity := 2,
    price := 100, commission := 0 }

def wExec2 : PaperExecution :=
  { order_id := 2, symbol := "AAPL", side := OrderSide.SELL, quantity := 1,
    price := 100, commission := 0 }

theorem position_quantity_eq_signed_sum_witness :
    quantityOf wPortfolio "AAPL" = 0 ∧
    quantityOf ([wExec1, wExec2].foldl update_portfolio_position wPortfolio)
        "AAPL" = signedExecutionSum "AAPL" [wExec1, wExec2] :=
  ⟨by norm_num [quantityOf, wPortfolio, getPosition],
   position_quantity_eq_signed_sum wPortfolio "AAPL" [wExec1, wExec2]
     (by norm_num [quantityOf, wPortfolio, getPosition])
     (by
       intro n hn
       simp only [List.length_cons, List.length_nil] at hn
       interval_cases n <;>
         norm_num [signedExecutionSum, execSigned, wExec1, wExec2])⟩

/-! ## C4 -/

/-- C4 (proved): when the portfolio exists and validation fails (in
particular for the three unfillable cases: no market data, insufficient
cash, insufficient shares), `place_order` returns normally with an order in
REJECTED state, and the addressed portfolio's cash, positions and executions
are exactly as before (only the rejected order is appended to its order
list); all other portfolios are untouched. -/
theorem rejected_order_preserves_state (eng : PaperTradingEngine)
    (portfolio_id : Nat) (symbol : String) (side : OrderSide) (quantity : ℚ)
    (order_type : OrderType) (price stop_price : Option ℚ)
    (portfolio : PaperPortfolio) (r : String)
    (hfind : eng.portfolios.find?
        (fun q => decide (q.id = portfolio_id)) = some portfolio)
    (hval : validate_order eng portfolio
        (newOrderFor eng portfolio_id symbol side quantity order_type price
          stop_price) = some r) :
    ∃ eng',
      place_order eng portfolio_id symbol side quantity order_type price
          stop_price
        = Except.ok
            ({ newOrderFor eng portfolio_id symbol side quantity order_type
                price stop_price with status := OrderStatus.REJECTED }, eng') ∧
      ∀ p' ∈ eng'.portfolios,
        (p'.id ≠ portfolio_id → p' ∈ eng.portfolios) ∧
        (p'.id = portfolio_id → p'.cash = portfolio.cash ∧
          p'.positions = portfolio.positions ∧
          p'.executions = portfolio.executions) := by
  have hpid : portfolio.id = portfolio_id := by
    have h1 := List.find?_some hfind
    simpa using h1
  refine ⟨replacePortfolio { eng with next_id := eng.next_id + 1 }
      { portfolio with orders := portfolio.orders ++
          [{ newOrderFor eng portfolio_id symbol side quantity order_type price
              stop_price with status := OrderStatus.REJECTED }] }, ?_, ?_⟩
  · simp only [place_order, hfind, hval]
  · intro p' hp'
    simp only [replacePortfolio, List.mem_map] at hp'
    obtain ⟨q, hq, hq'⟩ := hp'
    by_cases hid : q.id = portfolio.id
    · rw [if_pos hid] at hq'
      constructor
      · intro hne
        exact absurd (hq' ▸ hpid) hne
      · intro _
        rw [← hq']
        exact ⟨rfl, rfl, rfl⟩
    · rw [if_neg hid] at hq'
      constructor
      · intro _
        exact hq' ▸ hq
      · intro heq
        exact absurd (hq' ▸ heq ▸ hpid.symm) hid

/-- A portfolio holding no MSFT, for the C4 witness (SELL 10 MSFT must be
rejected with no state change). -/
theorem rejected_order_preserves_state_witness :
    ∃ eng',
      place_order wEngine 0 "MSFT" OrderSide.SELL 10 OrderType.MARKET none none
        = Except.ok
            ({ newOrderFor wEngine 0 "MSFT" OrderSide.SELL 10 OrderType.MARKET
                none none with status := OrderStatus.REJECTED }, eng') ∧
      ∀ p' ∈ eng'.portfolios,
        (p'.id ≠ 0 → p' ∈ wEngine.portfolios) ∧
        (p'.id = 0 → p'.cash = wPortfolio.cash ∧
          p'.positions = wPortfolio.positions ∧
          p'.executions = wPortfolio.executions) :=
  rejected_order_preserves_state wEngine 0 "MSFT" OrderSide.SELL 10
    OrderType.MARKET none none wPortfolio "Insufficient shares" rfl
    (by norm_num [validate_order, newOrderFor, wEngine, wMarket, wPortfolio,
      pyTruthy, getPosition])

/-! ## C5 -/

/-- C5 (counterexample): with bid/ask 99.95 / 100.05 the engine fills a market
BUY at `ask + ask × 0.001 = 100.15005`, not at the claimed
`ask + half-spread × 0.001 = 100.05005`. -/
theorem fill_price_not_halfspread_slippage_cex :
    (MarketDataProvider pricesA).get_bid_ask "AAPL"
      = (some (1999/20), some (2001/20)) ∧
    runA.toOption.map (fun x => x.1.filled_price) = some (some (2003001/20000)) ∧
    (2003001/20000 : ℚ) ≠ 2001/20 + ((2001/20 - 1999/20) / 2) * (1/1000) := by
  iterate 8
    (try simp [runA, engA1, engA0, mkEngine, create_portfolio, place_order, newOrderFor,
      validate_order, execute_market_order, update_portfolio_position, replacePortfolio,
      MarketDataProvider, pricesA, pyTruthy, getPosition, setPosition, syncById,
      PaperPosition.new, List.find?, Except.toOption, abs]
     <;> try norm_num [runA, engA1, engA0, mkEngine, create_portfolio, place_order, newOrderFor,
      validate_order, execute_market_order, update_portfolio_position, replacePortfolio,
      MarketDataProvider, pricesA, pyTruthy, getPosition, setPosition, syncById,
      PaperPosition.new, List.find?, Except.toOption, abs])

/-- C5 (amended, proved): whenever bid and ask are available, a market
execution fills at `ask × (1 + slippage_factor)` for a BUY and
`bid × (1 − slippage_factor)` for a SELL (the code applies the slippage
factor to the full base price, not to the half-spread), and the order is
FILLED. -/
theorem market_fill_price (eng : PaperTradingEngine) (p : PaperPortfolio)
    (order : PaperOrder) (b a : ℚ)
    (hba : eng.market_data.get_bid_ask order.symbol = (some b, some a))
    (hb : b ≠ 0) (ha : a ≠ 0) :
    (execute_market_order eng p order).2.status = OrderStatus.FILLED ∧
    (execute_market_order eng p order).2.filled_price =
      some (match order.side with
            | OrderSide.BUY => a * (1 + eng.slippage_factor)
            | OrderSide.SELL => b * (1 - eng.slippage_factor)) := by
  obtain ⟨oid, osym, oside, otype, oq, opr, osp, ost, ofp, ofq, ocm, opid⟩ := order
  unfold execute_market_order
  rw [hba]
  cases oside <;> · simp [pyTruthy, hb, ha]; ring

theorem market_fill_price_witness :
    (execute_market_order wEngine wPortfolio wBuyOrder).2.status
        = OrderStatus.FILLED ∧
    (execute_market_order wEngine wPortfolio wBuyOrder).2.filled_price =
      some (match wBuyOrder.side with
            | OrderSide.BUY => (2001/20 : ℚ) * (1 + wEngine.slippage_factor)
            | OrderSide.SELL => (1999/20 : ℚ) * (1 - wEngine.slippage_factor)) :=
  market_fill_price wEngine wPortfolio wBuyOrder (1999/20) (2001/20) rfl
    (by norm_num) (by norm_num)

/-! ## C6 -/

/-- C6 (counterexample): a reachable PENDING order (placed through
`place_order` on an engine whose injected quote source reports prices but no
bid/ask) transitions PENDING → REJECTED during `simulate_market_movement`:
its limit triggers, and the market execution finds no bid/ask.  The rejected
object is also appended a second time by `_execute_market_order`. -/
theorem pending_to_rejected_cex :
    engD2.portfolios.map (fun p => p.orders.map (fun o => (o.id, o.status)))
      = [[(1, OrderStatus.PENDING)]] ∧
    engD3.portfolios.map (fun p => p.orders.map (fun o => (o.id, o.status)))
      = [[(1, OrderStatus.REJECTED), (1, OrderStatus.REJECTED)]] := by
  iterate 8
    (try simp [engD3, engD2, engD1, engD0, advMarket, mkEngine, create_portfolio,
      place_order, newOrderFor, validate_order, execute_market_order,
      update_portfolio_position, replacePortfolio, pyTruthy, getPosition, setPosition,
      syncById, PaperPosition.new, List.find?, simulate_market_movement,
      process_pending_orders, process_pending_aux, triggerCondition, abs]
     <;> try norm_num [engD3, engD2, engD1, engD0, advMarket, mkEngine, create_portfolio,
      place_order, newOrderFor, validate_order, execute_market_order,
      update_portfolio_position, replacePortfolio, pyTruthy, getPosition, setPosition,
      syncById, PaperPosition.new, List.find?, simulate_market_movement,
      process_pending_orders, process_pending_aux, triggerCondition, abs])

theorem update_position_orders (p : PaperPortfolio) (e : PaperExecution) :
    (update_portfolio_position p e).orders = p.orders := by
  obtain ⟨oid, esym, eside, eq, ep, ec⟩ := e
  cases eside <;> rfl

/-- A predicate on the orders carrying a given id survives the in-place
mutation `syncById u` provided it also holds for the new value `u` when `u`
carries that id. -/
theorem orders_sync_prop {P : PaperOrder → Prop} {k : Nat}
    (l : List PaperOrder) (u : PaperOrder)
    (hl : ∀ o ∈ l, o.id = k → P o) (hu : u.id = k → P u) :
    ∀ o ∈ l.map (syncById u), o.id = k → P o := by
  intro o ho hk
  simp only [List.mem_map] at ho
  obtain ⟨x, hx, rfl⟩ := ho
  unfold syncById at hk ⊢
  by_cases h : x.id = u.id
  · rw [if_pos h] at hk ⊢
    exact hu hk
  · rw [if_neg h] at hk ⊢
    exact hl x hx hk

/-- `_execute_market_order` only mutates/appends the executed order itself:
any property of the id-`k` orders is preserved when it holds of the FILLED
and REJECTED updates of the executed order (vacuously when that order does
not carry id `k`). -/
theorem execute_market_order_orders_prop {P : PaperOrder → Prop} {k : Nat}
    (eng : PaperTradingEngine) (p : PaperPortfolio) (order : PaperOrder)
    (hp : ∀ o ∈ p.orders, o.id = k → P o)
    (hF : ∀ fp, order.id = k →
      P { order with
            status := OrderStatus.FILLED,
            filled_price := some fp,
            filled_quantity := order.quantity,
            commission := eng.commission_per_trade })
    (hR : order.id = k → P { order with status := OrderStatus.REJECTED }) :
    ∀ o' ∈ (execute_market_order eng p order).1.orders, o'.id = k → P o' := by
  intro o' ho' hk
  unfold execute_market_order at ho'
  by_cases hc : (pyTruthy (eng.market_data.get_bid_ask order.symbol).1 &&
      pyTruthy (eng.market_data.get_bid_ask order.symbol).2) = true
  · rw [if_pos hc] at ho'
    simp only [update_position_orders, List.mem_append,
      List.mem_singleton] at ho'
    rcases ho' with ho' | rfl
    · exact orders_sync_prop p.orders _ hp (fun hk' => hF _ hk') o' ho' hk
    · exact hF _ hk
  · rw [if_neg hc] at ho'
    simp only [List.mem_append, List.mem_singleton] at ho'
    rcases ho' with ho' | rfl
    · exact orders_sync_prop p.orders _ hp (fun hk' => hR hk') o' ho' hk
    · exact hR hk

def wPendingOrder : PaperOrder :=
  { id := 5, symbol := "AAPL", side := OrderSide.BUY,
    order_type := OrderType.LIMIT, quantity := 1, price := some 90,
    stop_price := none, status := OrderStatus.PENDING, filled_price := none,
    filled_quantity := 0, commission := 0, portfolio_id := 0 }

def wPortfolioP : PaperPortfolio :=
  { id := 0, name := "w", cash := 150, positions := [],
    orders := [wPendingOrder], executions := [] }

def wEngineP : PaperTradingEngine :=
  { market_data := wMarket, portfolios := [wPortfolioP],
    commission_per_trade := 0, slippage_factor := 1/1000, next_id := 6 }

/-- The amended transition relation: a status either stays what it was, or
moves from PENDING to one of the terminal states FILLED / CANCELLED /
REJECTED. -/
def StatusStep (st st' : OrderStatus) : Prop :=
  st' = st ∨ (st = OrderStatus.PENDING ∧
    (st' = OrderStatus.FILLED ∨ st' = OrderStatus.CANCELLED ∨
     st' = OrderStatus.REJECTED))

/-- Tracking invariant for the order id `k`: the id counter is beyond `k`
(so no freshly created order can collide with it) and every stored order
carrying id `k` has a status reachable from `st` by an allowed step. -/
def TracksOrder (k : Nat) (st : OrderStatus) (eng : PaperTradingEngine) : Prop :=
  k < eng.next_id ∧
  ∀ p ∈ eng.portfolios, ∀ o ∈ p.orders, o.id = k → StatusStep st o.status

theorem statusStep_pending {st : OrderStatus}
    (h : StatusStep st OrderStatus.PENDING) : st = OrderStatus.PENDING := by
  rcases h with h | ⟨h1, _⟩
  · exact h.symm
  · exact h1

theorem update_values_orders (eng : PaperTradingEngine) (p : PaperPortfolio) :
    (update_portfolio_values eng p).orders = p.orders := rfl

theorem replacePortfolio_orders_prop {Q : PaperOrder → Prop}
    (eng : PaperTradingEngine) (p' : PaperPortfolio)
    (h : ∀ p ∈ eng.portfolios, ∀ o ∈ p.orders, Q o)
    (hp' : ∀ o ∈ p'.orders, Q o) :
    ∀ p ∈ (replacePortfolio eng p').portfolios, ∀ o ∈ p.orders, Q o := by
  intro p hp
  simp only [replacePortfolio, List.mem_map] at hp
  obtain ⟨q, hq, rfl⟩ := hp
  by_cases hid : q.id = p'.id
  · rw [if_pos hid]
    exact hp'
  · rw [if_neg hid]
    exact h q hq

theorem engineStep_place_tracks {k : Nat} {st : OrderStatus}
    (eng : PaperTradingEngine) (pid : Nat) (symbol : String) (side : OrderSide)
    (quantity : ℚ) (order_type : OrderType) (price stop_price : Option ℚ)
    (h : TracksOrder k st eng) :
    TracksOrder k st
      (engineStep eng
        (EngineCall.place pid symbol side quantity order_type price stop_price)) := by
  obtain ⟨hk, hall⟩ := h
  cases hfp : eng.portfolios.find? (fun q => decide (q.id = pid)) with
  | none =>
      simp only [engineStep, place_order, hfp]
      exact ⟨hk, hall⟩
  | some portfolio =>
      have hmem := List.mem_of_find?_eq_some hfp
      have hneq : (newOrderFor eng pid symbol side quantity order_type price
          stop_price).id ≠ k := by
        show eng.next_id ≠ k
        omega
      cases hv : validate_order eng portfolio
          (newOrderFor eng pid symbol side quantity order_type price
            stop_price) with
      | some r =>
          simp only [engineStep, place_order, hfp, hv]
          refine ⟨by show k < eng.next_id + 1; omega, ?_⟩
          refine replacePortfolio_orders_prop _ _ hall ?_
          intro o ho hko
          rcases List.mem_append.mp ho with ho | ho
          · exact hall portfolio hmem o ho hko
          · rw [List.mem_singleton] at ho
            subst ho
            exact absurd hko hneq
      | none =>
          cases order_type with
          | MARKET =>
              simp only [engineStep, place_order, hfp, hv]
              refine ⟨by show k < eng.next_id + 1; omega, ?_⟩
              refine replacePortfolio_orders_prop _ _ hall ?_
              refine execute_market_order_orders_prop _ _ _
                (hall portfolio hmem) ?_ ?_
              · intro fp hko
                exact absurd hko hneq
              · intro hko
                exact absurd hko hneq
          | LIMIT =>
              simp only [engineStep, place_order, hfp, hv]
              refine ⟨by show k < eng.next_id + 1; omega, ?_⟩
              refine replacePortfolio_orders_prop _ _ hall ?_
              intro o ho hko
              rcases List.mem_append.mp ho with ho | ho
              · exact hall portfolio hmem o ho hko
              · rw [List.mem_singleton] at ho
                subst ho
                exact absurd hko hneq
          | STOP =>
              simp only [engineStep, place_order, hfp, hv]
              refine ⟨by show k < eng.next_id + 1; omega, ?_⟩
              refine replacePortfolio_orders_prop _ _ hall ?_
              intro o ho hko
              rcases List.mem_append.mp ho with ho | ho
              · exact hall portfolio hmem o ho hko
              · rw [List.mem_singleton] at ho
                subst ho
                exact absurd hko hneq
          | STOP_LIMIT =>
              simp only [engineStep, place_order, hfp, hv]
              refine ⟨by show k < eng.next_id + 1; omega, ?_⟩
              refine replacePortfolio_orders_prop _ _ hall ?_
              intro o ho hko
              rcases List.mem_append.mp ho with ho | ho
              · exact hall portfolio hmem o ho hko
              · rw [List.mem_singleton] at ho
                subst ho
                exact absurd hko hneq

theorem engineStep_cancel_tracks {k : Nat} {st : OrderStatus}
    (eng : PaperTradingEngine) (pid oid : Nat) (h : TracksOrder k st eng) :
    TracksOrder k st (engineStep eng (EngineCall.cancel pid oid)) := by
  obtain ⟨hk, hall⟩ := h
  cases hfp : eng.portfolios.find? (fun q => decide (q.id = pid)) with
  | none =>
      simp only [engineStep, cancel_order, hfp]
      exact ⟨hk, hall⟩
  | some portfolio =>
      have hmem := List.mem_of_find?_eq_some hfp
      cases hfo : portfolio.orders.find? (fun o =>
          decide (o.id = oid) &&
            (match o.status with | OrderStatus.PENDING => true | _ => false)) with
      | none =>
          simp only [engineStep, cancel_order, hfp, hfo]
          exact ⟨hk, hall⟩
      | some o =>
          have hpred := List.find?_some hfo
          rw [Bool.and_eq_true] at hpred
          have hstat : o.status = OrderStatus.PENDING := by
            have h2 := hpred.2
            cases hs : o.status
            case PENDING => rfl
            all_goals (rw [hs] at h2; simp at h2)
          simp only [engineStep, cancel_order, hfp, hfo]
          refine ⟨hk, ?_⟩
          refine replacePortfolio_orders_prop _ _ hall ?_
          refine orders_sync_prop _ _ (hall portfolio hmem) ?_
          intro hko
          have hstP : st = OrderStatus.PENDING :=
            statusStep_pending
              (hstat ▸ hall portfolio hmem o (List.mem_of_find?_eq_some hfo) hko)
          exact Or.inr ⟨hstP, Or.inr (Or.inl rfl)⟩

theorem process_aux_tracks {k : Nat} {st : OrderStatus}
    (eng : PaperTradingEngine) :
    ∀ (fuel : Nat) (p : PaperPortfolio) (i : Nat),
      (∀ o ∈ p.orders, o.id = k → StatusStep st o.status) →
      ∀ o' ∈ (process_pending_aux eng fuel p i).orders, o'.id = k →
        StatusStep st o'.status := by
  intro fuel
  induction fuel with
  | zero =>
      intro p i h
      simpa [process_pending_aux] using h
  | succ fuel ih =>
      intro p i h
      simp only [process_pending_aux]
      split
      case isFalse => exact h
      case isTrue hi =>
        split
        case h_2 => exact ih p (i+1) h
        case h_1 hpend =>
          split
          case isFalse => exact ih p (i+1) h
          case isTrue hcp =>
            split
            case isFalse => exact ih p (i+1) h
            case isTrue htrig =>
              have hPend : p.orders[i].id = k → st = OrderStatus.PENDING := by
                intro hko
                exact statusStep_pending
                  (hpend ▸ h _ (p.orders.getElem_mem hi) hko)
              refine ih _ (i+1) ?_
              refine execute_market_order_orders_prop _ _ _ ?_ ?_ ?_
              · refine orders_sync_prop _ _ h ?_
                intro hko
                exact h (p.orders[i]) (p.orders.getElem_mem hi) hko
              · intro fp hko
                exact Or.inr ⟨hPend hko, Or.inl rfl⟩
              · intro hko
                exact Or.inr ⟨hPend hko, Or.inr (Or.inr rfl)⟩

theorem engineStep_tick_tracks {k : Nat} {st : OrderStatus}
    (eng : PaperTradingEngine) (h : TracksOrder k st eng) :
    TracksOrder k st (engineStep eng EngineCall.tick) := by
  obtain ⟨hk, hall⟩ := h
  refine ⟨hk, ?_⟩
  intro p' hp'
  simp only [engineStep, simulate_market_movement, List.mem_map] at hp'
  obtain ⟨q, hq, rfl⟩ := hp'
  exact process_aux_tracks eng _ q 0 (hall q hq)

theorem engineStep_summary_tracks {k : Nat} {st : OrderStatus}
    (eng : PaperTradingEngine) (pid : Nat) (h : TracksOrder k st eng) :
    TracksOrder k st (engineStep eng (EngineCall.summary pid)) := by
  obtain ⟨hk, hall⟩ := h
  cases hfp : eng.portfolios.find? (fun q => decide (q.id = pid)) with
  | none =>
      simp only [engineStep, get_portfolio_summary, hfp]
      exact ⟨hk, hall⟩
  | some portfolio =>
      simp only [engineStep, get_portfolio_summary, hfp]
      refine ⟨hk, ?_⟩
      refine replacePortfolio_orders_prop _ _ hall ?_
      rw [update_values_orders]
      exact hall portfolio (List.mem_of_find?_eq_some hfp)

theorem planStep_tracks {k : Nat} {st : OrderStatus} (pid : Nat)
    (ot : OrderType) (useLimit : Bool)
    (acc : List PlacedOrderRecord × List (String × String) × PaperTradingEngine)
    (r : TradeRecommendation) (h : TracksOrder k st acc.2.2) :
    TracksOrder k st ((planStep pid ot useLimit acc r).2.2) := by
  have h2 := engineStep_place_tracks acc.2.2 pid r.symbol
    (if r.action = "BUY" then OrderSide.BUY else OrderSide.SELL) |r.shares| ot
    (if useLimit then some r.current_price else none) none h
  simp only [engineStep] at h2
  simp only [planStep]
  cases hres : place_order acc.2.2 pid r.symbol
      (if r.action = "BUY" then OrderSide.BUY else OrderSide.SELL) |r.shares| ot
      (if useLimit then some r.current_price else none) none with
  | ok oe =>
      rw [hres] at h2
      exact h2
  | error e =>
      rw [hres] at h2
      exact h2

theorem foldl_planStep_tracks {k : Nat} {st : OrderStatus} (pid : Nat)
    (ot : OrderType) (useLimit : Bool) :
    ∀ (l : List TradeRecommendation)
      (acc : List PlacedOrderRecord × List (String × String) × PaperTradingEngine),
      TracksOrder k st acc.2.2 →
      TracksOrder k st ((l.foldl (planStep pid ot useLimit) acc)).2.2 := by
  intro l
  induction l with
  | nil =>
      intro acc h
      simpa using h
  | cons r rest ih =>
      intro acc h
      rw [List.foldl_cons]
      exact ih _ (planStep_tracks pid ot useLimit acc r h)

theorem engineStep_rebalance_tracks {k : Nat} {st : OrderStatus}
    (eng : PaperTradingEngine) (pid : Nat) (plan : RebalancingPlan)
    (h : TracksOrder k st eng) :
    TracksOrder k st (engineStep eng (EngineCall.rebalance pid plan)) := by
  cases hfp : eng.portfolios.find? (fun q => decide (q.id = pid)) with
  | none =>
      simp only [engineStep, execute_rebalancing_plan, hfp]
      exact h
  | some portfolio =>
      simp only [engineStep, execute_rebalancing_plan, hfp]
      have h1 := foldl_planStep_tracks pid OrderType.MARKET false plan.immediate
        ([], [], eng) h
      have h2 := foldl_planStep_tracks pid OrderType.LIMIT true plan.end_of_day
        _ h1
      have h3 := engineStep_summary_tracks
        ((plan.end_of_day.foldl (planStep pid OrderType.LIMIT true)
          (plan.immediate.foldl (planStep pid OrderType.MARKET false)
            ([], [], eng))).2.2) pid h2
      simpa only [engineStep] using h3

/-- C6 (amended, proved): for every already-issued order id, any single
engine call changes its status only along the allowed transitions — it
stays what it was, or moves from PENDING to FILLED (trigger/market fill),
to CANCELLED (explicit cancel), or to REJECTED (the quote source reports no
bid/ask at execution time); in particular a terminal status never changes
again. -/
theorem engine_status_transitions (eng : PaperTradingEngine) (c : EngineCall)
    (k : Nat) (st : OrderStatus) (hk : k < eng.next_id)
    (hst : ∀ p ∈ eng.portfolios, ∀ o ∈ p.orders, o.id = k → o.status = st) :
    ∀ p' ∈ (engineStep eng c).portfolios, ∀ o' ∈ p'.orders, o'.id = k →
      StatusStep st o'.status := by
  have h0 : TracksOrder k st eng :=
    ⟨hk, fun p hp o ho hko => Or.inl (hst p hp o ho hko)⟩
  cases c with
  | place pid s sd q t pr sp =>
      exact (engineStep_place_tracks eng pid s sd q t pr sp h0).2
  | cancel pid oid => exact (engineStep_cancel_tracks eng pid oid h0).2
  | tick => exact (engineStep_tick_tracks eng h0).2
  | rebalance pid plan =>
      exact (engineStep_rebalance_tracks eng pid plan h0).2
  | summary pid => exact (engineStep_summary_tracks eng pid h0).2

theorem engine_status_transitions_witness :
    (5 < wEngineP.next_id ∧
      ∀ p ∈ wEngineP.portfolios, ∀ o ∈ p.orders, o.id = 5 →
        o.status = OrderStatus.PENDING) ∧
    (∀ p' ∈ (engineStep wEngineP (EngineCall.cancel 0 5)).portfolios,
      ∀ o' ∈ p'.orders, o'.id = 5 →
        StatusStep OrderStatus.PENDING o'.status) := by
  constructor
  · constructor
    · decide
    · decide
  · exact engine_status_transitions wEngineP (EngineCall.cancel 0 5) 5
      OrderStatus.PENDING (by decide) (by decide)

/-! ## C7 -/

/-- C7 (proved): `cancel_order` returns true exactly when the addressed
portfolio holds an order with the given id in PENDING state.  On false
(unknown portfolio, unknown order id, or any non-PENDING state — in
particular a terminal order cancelled a second time) the engine state is
returned unchanged, so repeated cancellation is a pure no-op.  On success
the matched order is moved to CANCELLED while cash, positions and executions
are untouched. -/
theorem cancel_order_correct (eng : PaperTradingEngine)
    (portfolio_id order_id : Nat) :
    ((cancel_order eng portfolio_id order_id).1 = true ↔
      ∃ portfolio, eng.portfolios.find?
          (fun q => decide (q.id = portfolio_id))
            = some portfolio ∧
        ∃ o ∈ portfolio.orders, o.id = order_id ∧
          o.status = OrderStatus.PENDING) ∧
    ((cancel_order eng portfolio_id order_id).1 = false →
      (cancel_order eng portfolio_id order_id).2 = eng) ∧
    ((cancel_order eng portfolio_id order_id).1 = true →
      ∀ p' ∈ (cancel_order eng portfolio_id order_id).2.portfolios,
        (p'.id ≠ portfolio_id → p' ∈ eng.portfolios) ∧
        (p'.id = portfolio_id → ∃ p ∈ eng.portfolios, p.id = portfolio_id ∧
          p'.cash = p.cash ∧ p'.positions = p.positions ∧
          p'.executions = p.executions ∧
          ∀ o' ∈ p'.orders, o'.id = order_id →
            o'.status = OrderStatus.CANCELLED)) := by
  cases hfp : eng.portfolios.find?
      (fun q => decide (q.id = portfolio_id)) with
  | none =>
      refine ⟨?_, ?_, ?_⟩ <;> simp [cancel_order, hfp]
  | some portfolio =>
      have hppid : portfolio.id = portfolio_id := by
        have h1 := List.find?_some hfp
        simpa using h1
      cases hfo : portfolio.orders.find? (fun o =>
          decide (o.id = order_id) &&
            (match o.status with | OrderStatus.PENDING => true | _ => false)) with
      | none =>
          refine ⟨?_, ?_, ?_⟩
          · simp only [cancel_order, hfp, hfo]
            constructor
            · intro h
              simp at h
            · rintro ⟨portfolio', hp', o, ho, h1, h2⟩
              injection hp' with hp'
              subst hp'
              have := List.find?_eq_none.mp hfo o ho
              simp [h1, h2] at this
          · intro _
            simp [cancel_order, hfp, hfo]
          · simp [cancel_order, hfp, hfo]
      | some o =>
          have hpred := List.find?_some hfo
          rw [Bool.and_eq_true] at hpred
          have hoid : o.id = order_id := by
            have h1 := hpred.1
            simpa using h1
          have hstat : o.status = OrderStatus.PENDING := by
            have h2 := hpred.2
            cases hs : o.status
            case PENDING => rfl
            all_goals (rw [hs] at h2; simp at h2)
          refine ⟨?_, ?_, ?_⟩
          · simp only [cancel_order, hfp, hfo]
            exact iff_of_true trivial
              ⟨portfolio, rfl, o, List.mem_of_find?_eq_some hfo, hoid, hstat⟩
          · intro h
            simp [cancel_order, hfp, hfo] at h
          · intro _ p' hp'
            simp only [cancel_order, hfp, hfo, replacePortfolio,
              List.mem_map] at hp'
            obtain ⟨q, hq, hq'⟩ := hp'
            by_cases hid : q.id = portfolio.id
            · rw [if_pos hid] at hq'
              constructor
              · intro hne
                exact absurd (hq' ▸ hppid) hne
              · intro _
                refine ⟨portfolio, List.mem_of_find?_eq_some hfp, hppid,
                  by rw [← hq'], by rw [← hq'], by rw [← hq'], ?_⟩
                intro o' ho' hoid'
                rw [← hq'] at ho'
                simp only [List.mem_map] at ho'
                obtain ⟨x, hx, hx'⟩ := ho'
                by_cases hxid : x.id = o.id
                · rw [← hx']
                  simp [syncById, hxid]
                · rw [← hx'] at hoid'
                  simp only [syncById] at hoid' hx'
                  rw [if_neg (by simpa using hxid)] at hoid'
                  exact absurd (hoid'.trans hoid.symm) hxid
            · rw [if_neg hid] at hq'
              constructor
              · intro _
                exact hq' ▸ hq
              · intro heq
                exact absurd (hq' ▸ heq ▸ hppid.symm) hid

theorem cancel_order_correct_witness :
    (cancel_order wEngineP 0 5).1 = true ∧
    (cancel_order wEngineP 0 99).2 = wEngineP :=
  ⟨(cancel_order_correct wEngineP 0 5).1.mpr
      ⟨wPortfolioP, rfl, wPendingOrder, by simp [wPortfolioP], rfl, rfl⟩,
   (cancel_order_correct wEngineP 0 99).2.1 rfl⟩

/-! ## C8 -/

/-- C8 (counterexample): the plan with one unfillable immediate SELL and one
valid immediate BUY yields `success = true` and an empty error list — a
rejected order is normal control flow, not a raised exception, so nothing is
collected into `errors` and `success` is never cleared. -/
theorem partial_batch_success_true_cex :
    runE.toOption.map (fun x => (x.1.success, x.1.errors))
      = some (true, []) := by
  iterate 8
    (try simp [runE, engE1, planE, mkEngine, create_portfolio, execute_rebalancing_plan,
      planStep, place_order, newOrderFor, validate_order, execute_market_order,
      update_portfolio_position, replacePortfolio, MarketDataProvider, pricesE, pyTruthy,
      getPosition, setPosition, syncById, PaperPosition.new, List.find?,
      get_portfolio_summary, update_portfolio_values, Except.toOption, abs]
     <;> try norm_num [runE, engE1, planE, mkEngine, create_portfolio, execute_rebalancing_plan,
      planStep, place_order, newOrderFor, validate_order, execute_market_order,
      update_portfolio_position, replacePortfolio, MarketDataProvider, pricesE, pyTruthy,
      getPosition, setPosition, syncById, PaperPosition.new, List.find?,
      get_portfolio_summary, update_portfolio_values, Except.toOption, abs])

/-- The parts of an `execute_rebalancing_plan` result that are independent of
the final portfolio summary: the success flag, the error list, and the
(symbol, action, status) triples of `orders_placed`. -/
def rebalanceOutcome
    (r : Except String (RebalanceResult × PaperTradingEngine)) :
    Option (Bool × List (String × String) × List (String × String × OrderStatus)) :=
  match r with
  | Except.ok re =>
      some (re.1.success, re.1.errors,
        re.1.orders_placed.map (fun x => (x.symbol, x.action, x.status)))
  | Except.error _ => none

/-- `find?` on the portfolio list after `replacePortfolio`: the slot that held
the addressed portfolio now holds the replacement (any portfolio that keeps
the same id). -/
theorem find_replace_portfolio (l : List PaperPortfolio) (pid : Nat)
    (portfolio X : PaperPortfolio)
    (hfind : l.find? (fun q => decide (q.id = pid)) = some portfolio)
    (hX : X.id = portfolio.id) :
    (l.map (fun q => if q.id = portfolio.id then X else q)).find?
      (fun q => decide (q.id = pid)) = some X := by
  have hpid : portfolio.id = pid := by
    have h1 := List.find?_some hfind
    simpa using h1
  induction l with
  | nil => simp at hfind
  | cons h t ih =>
      by_cases hh : h.id = pid
      · rw [List.find?_cons_of_pos _ (by simpa using hh)] at hfind
        injection hfind with hfind
        subst hfind
        rw [List.map_cons, if_pos rfl,
          List.find?_cons_of_pos _ (by simp [hX, hpid])]
      · rw [List.find?_cons_of_neg _ (by simpa using hh)] at hfind
        rw [List.map_cons, if_neg (fun e => hh (e.trans hpid)),
          List.find?_cons_of_neg _ (by simpa using hh)]
        exact ih hfind

/-- `_validate_order` on a SELL whose quantity exceeds the held shares (or
with no position at all): it fails with "Insufficient shares" whenever market
data is available for the symbol. -/
theorem validate_sell_short (eng : PaperTradingEngine)
    (portfolio : PaperPortfolio) (order : PaperOrder)
    (hpx : pyTruthy (eng.market_data.get_current_price order.symbol) = true)
    (hside : order.side = OrderSide.SELL)
    (hshort : ∀ pos, getPosition portfolio.positions order.symbol = some pos →
      pos.quantity < order.quantity) :
    validate_order eng portfolio order = some "Insufficient shares" := by
  simp only [validate_order]
  rw [if_pos hpx]
  simp only [hside]
  cases hpos : getPosition portfolio.positions order.symbol with
  | none => rfl
  | some pos =>
      have hlt := hshort pos hpos
      simp [hlt]

/-- `_validate_order` accepts a BUY when market data is available, the cash
covers `quantity × price + commission`, and the quantity is positive. -/
theorem validate_buy_ok (eng : PaperTradingEngine)
    (portfolio : PaperPortfolio) (order : PaperOrder) (p : ℚ)
    (hp : eng.market_data.get_current_price order.symbol = some p) (hp0 : p ≠ 0)
    (hside : order.side = OrderSide.BUY)
    (hcash : order.quantity * p + eng.commission_per_trade ≤ portfolio.cash)
    (hq : 0 < order.quantity) :
    validate_order eng portfolio order = none := by
  unfold validate_order
  rw [hp]
  simp only [pyTruthy, hp0, if_false, if_true, Option.getD_some, hside]
  rw [if_neg (not_lt.mpr hcash), if_neg (not_le.mpr hq)]

/-- `place_order` under a failed validation, as an equation: the order comes
back REJECTED, appended to the addressed portfolio, and the id counter
advances. -/
theorem place_order_rejected_eq (eng : PaperTradingEngine)
    (portfolio_id : Nat) (symbol : String) (side : OrderSide) (quantity : ℚ)
    (order_type : OrderType) (price stop_price : Option ℚ)
    (portfolio : PaperPortfolio) (r : String)
    (hfind : eng.portfolios.find?
        (fun q => decide (q.id = portfolio_id)) = some portfolio)
    (hval : validate_order eng portfolio
        (newOrderFor eng portfolio_id symbol side quantity order_type price
          stop_price) = some r) :
    place_order eng portfolio_id symbol side quantity order_type price stop_price
      = Except.ok
          ({ newOrderFor eng portfolio_id symbol side quantity order_type price
              stop_price with status := OrderStatus.REJECTED },
            replacePortfolio { eng with next_id := eng.next_id + 1 }
              { portfolio with orders := portfolio.orders ++
                  [{ newOrderFor eng portfolio_id symbol side quantity order_type
                      price stop_price with status := OrderStatus.REJECTED }] }) := by
  simp only [place_order, hfind, hval]

/-- `place_order` on a valid MARKET order with bid and ask available: it
returns normally and the returned order is FILLED. -/
theorem place_order_market_filled_eq (eng : PaperTradingEngine)
    (portfolio_id : Nat) (symbol : String) (side : OrderSide) (quantity : ℚ)
    (portfolio : PaperPortfolio) (b a : ℚ)
    (hfind : eng.portfolios.find?
        (fun q => decide (q.id = portfolio_id)) = some portfolio)
    (hval : validate_order eng portfolio
        (newOrderFor eng portfolio_id symbol side quantity OrderType.MARKET
          none none) = none)
    (hba : eng.market_data.get_bid_ask symbol = (some b, some a))
    (hb : b ≠ 0) (ha : a ≠ 0) :
    ∃ o eng',
      place_order eng portfolio_id symbol side quantity OrderType.MARKET
          none none = Except.ok (o, eng') ∧
      o.status = OrderStatus.FILLED := by
  refine ⟨(execute_market_order { eng with next_id := eng.next_id + 1 }
      portfolio (newOrderFor eng portfolio_id symbol side quantity
        OrderType.MARKET none none)).2,
    replacePortfolio { eng with next_id := eng.next_id + 1 }
      (execute_market_order { eng with next_id := eng.next_id + 1 }
        portfolio (newOrderFor eng portfolio_id symbol side quantity
          OrderType.MARKET none none)).1,
    ?_, ?_⟩
  · simp only [place_order, hfind, hval]
  · simp [execute_market_order, newOrderFor, hba, pyTruthy, hb, ha]

/-- C8 (amended, proved): for every engine state, addressed portfolio and
rebalancing plan whose immediate phase consists of one SELL recommendation
exceeding the shares held followed by one valid BUY recommendation (with no
end-of-day phase), `execute_rebalancing_plan` reports `success = true` with
an empty error list — a rejected order is normal control flow, not a raised
exception — while `orders_placed` records the SELL's order with status
REJECTED and the BUY's order with status FILLED. -/
theorem partial_batch_rejected_and_filled (eng : PaperTradingEngine)
    (pid : Nat) (portfolio : PaperPortfolio) (r1 r2 : TradeRecommendation)
    (p2 b a : ℚ)
    (hfind : eng.portfolios.find? (fun q => decide (q.id = pid))
      = some portfolio)
    (h1act : r1.action = "SELL")
    (h1px : pyTruthy (eng.market_data.get_current_price r1.symbol) = true)
    (h1short : ∀ pos, getPosition portfolio.positions r1.symbol = some pos →
      pos.quantity < |r1.shares|)
    (h2act : r2.action = "BUY")
    (h2px : eng.market_data.get_current_price r2.symbol = some p2)
    (hp2 : p2 ≠ 0)
    (h2cash : |r2.shares| * p2 + eng.commission_per_trade ≤ portfolio.cash)
    (h2qty : 0 < |r2.shares|)
    (h2ba : eng.market_data.get_bid_ask r2.symbol = (some b, some a))
    (hb : b ≠ 0) (ha : a ≠ 0) :
    rebalanceOutcome (execute_rebalancing_plan eng pid
        { immediate := [r1, r2], end_of_day := [] })
      = some (true, [],
          [(r1.symbol, "SELL", OrderStatus.REJECTED),
           (r2.symbol, "BUY", OrderStatus.FILLED)]) := by
  have hval1 : validate_order eng portfolio
      (newOrderFor eng pid r1.symbol OrderSide.SELL |r1.shares|
        OrderType.MARKET none none) = some "Insufficient shares" :=
    validate_sell_short eng portfolio _ h1px rfl h1short
  have hplace1 := place_order_rejected_eq eng pid r1.symbol OrderSide.SELL
    (|r1.shares|) OrderType.MARKET none none portfolio "Insufficient shares"
    hfind hval1
  obtain ⟨o2, eng2, hplace2, ho2⟩ := place_order_market_filled_eq
    (replacePortfolio { eng with next_id := eng.next_id + 1 }
      { portfolio with orders := portfolio.orders ++
          [{ newOrderFor eng pid r1.symbol OrderSide.SELL |r1.shares|
              OrderType.MARKET none none with
              status := OrderStatus.REJECTED }] })
    pid r2.symbol OrderSide.BUY (|r2.shares|)
    { portfolio with orders := portfolio.orders ++
        [{ newOrderFor eng pid r1.symbol OrderSide.SELL |r1.shares|
            OrderType.MARKET none none with
            status := OrderStatus.REJECTED }] }
    b a
    (find_replace_portfolio eng.portfolios pid portfolio _ hfind rfl)
    (validate_buy_ok _ _ _ p2 h2px hp2 rfl h2cash h2qty)
    h2ba hb ha
  have hsb : ("SELL" = "BUY") = False := by simp
  have hbb : ("BUY" = "BUY") = True := by simp
  have hfb : ((false : Bool) = true) = False := by simp
  simp only [execute_rebalancing_plan, hfind, List.foldl_cons, List.foldl_nil,
    planStep, h1act, h2act, hsb, hbb, hfb, if_true, if_false]
  simp only [hplace1]
  simp only [List.nil_append]
  simp only [hplace2, ho2]
  simp [rebalanceOutcome]

theorem partial_batch_rejected_and_filled_witness :
    rebalanceOutcome (execute_rebalancing_plan engE1 0 planE)
      = some (true, [],
          [("MSFT", "SELL", OrderStatus.REJECTED),
           ("AAPL", "BUY", OrderStatus.FILLED)]) := by
  have h := partial_batch_rejected_and_filled engE1 0
    { id := 0, name := "t", cash := 100000, positions := [], orders := [],
      executions := [] }
    { symbol := "MSFT", action := "SELL", shares := 10, current_price := 100 }
    { symbol := "AAPL", action := "BUY", shares := 10, current_price := 100 }
    100 (1999/20) (2001/20)
    (by norm_num [engE1, mkEngine, create_portfolio, MarketDataProvider,
      List.find?])
    rfl
    (by norm_num [engE1, mkEngine, create_portfolio, MarketDataProvider,
      pricesE, pyTruthy])
    (by intro pos hpos; simp [getPosition] at hpos)
    rfl
    (by norm_num [engE1, mkEngine, create_portfolio, MarketDataProvider,
      pricesE])
    (by norm_num)
    (by norm_num [engE1, mkEngine, create_portfolio, abs])
    (by norm_num [abs])
    (by norm_num [engE1, mkEngine, create_portfolio, MarketDataProvider,
      pricesE])
    (by norm_num) (by norm_num)
  exact h

/-! ## C10 -/

/-- `_process_pending_orders` never fires a trigger for a STOP_LIMIT order:
the trigger test only inspects LIMIT and STOP order types. -/
theorem triggerCondition_stop_limit (o : PaperOrder) (cp : ℚ)
    (h : o.order_type = OrderType.STOP_LIMIT) :
    triggerCondition o cp = false := by
  cases hside : o.side <;> simp [triggerCondition, h, hside]

theorem process_aux_stop_limit (eng : PaperTradingEngine) (k : Nat) :
    ∀ (fuel : Nat) (p : PaperPortfolio) (i : Nat),
      (∀ o ∈ p.orders, o.id = k →
        o.status = OrderStatus.PENDING ∧
        o.order_type = OrderType.STOP_LIMIT) →
      ∀ o' ∈ (process_pending_aux eng fuel p i).orders, o'.id = k →
        o'.status = OrderStatus.PENDING ∧
        o'.order_type = OrderType.STOP_LIMIT := by
  intro fuel
  induction fuel with
  | zero =>
      intro p i h
      simpa [process_pending_aux] using h
  | succ fuel ih =>
      intro p i h
      simp only [process_pending_aux]
      split
      case isFalse => exact h
      case isTrue hi =>
        split
        case h_2 => exact ih p (i+1) h
        case h_1 hpend =>
          split
          case isFalse => exact ih p (i+1) h
          case isTrue hcp =>
            split
            case isFalse => exact ih p (i+1) h
            case isTrue htrig =>
              have hne : p.orders[i].id ≠ k := by
                intro hk
                have hSL := (h _ (p.orders.getElem_mem hi) hk).2
                rw [triggerCondition_stop_limit _ _ hSL] at htrig
                exact Bool.false_ne_true htrig
              refine ih _ (i+1) ?_
              refine execute_market_order_orders_prop eng _ _ ?_ ?_ ?_
              · exact orders_sync_prop p.orders _ h
                  (fun hk => absurd hk hne)
              · intro _ hk
                exact absurd hk hne
              · intro hk
                exact absurd hk hne

theorem simulate_stop_limit (eng : PaperTradingEngine) (k : Nat)
    (h : ∀ p ∈ eng.portfolios, ∀ o ∈ p.orders, o.id = k →
        o.status = OrderStatus.PENDING ∧
        o.order_type = OrderType.STOP_LIMIT) :
    ∀ p' ∈ (simulate_market_movement eng).portfolios, ∀ o' ∈ p'.orders,
      o'.id = k →
        o'.status = OrderStatus.PENDING ∧
        o'.order_type = OrderType.STOP_LIMIT := by
  intro p' hp'
  simp only [simulate_market_movement, List.mem_map] at hp'
  obtain ⟨q, hq, rfl⟩ := hp'
  exact process_aux_stop_limit eng k _ q 0 (h q hq)

/-- C10 (proved): once a STOP_LIMIT order is PENDING, no amount of market
movement executes it — after any sequence of ticks, each against an
arbitrary quote feed, every order carrying its id is still PENDING and still
STOP_LIMIT (only an explicit cancel can move it). -/
theorem stop_limit_stays_pending (eng : PaperTradingEngine) (k : Nat)
    (feeds : List MarketData)
    (h : ∀ p ∈ eng.portfolios, ∀ o ∈ p.orders, o.id = k →
        o.status = OrderStatus.PENDING ∧
        o.order_type = OrderType.STOP_LIMIT) :
    ∀ p' ∈ (tickSeq feeds eng).portfolios, ∀ o' ∈ p'.orders, o'.id = k →
      o'.status = OrderStatus.PENDING ∧
      o'.order_type = OrderType.STOP_LIMIT := by
  induction feeds generalizing eng with
  | nil => simpa [tickSeq] using h
  | cons m ms ih =>
      rw [tickSeq]
      exact ih _ (simulate_stop_limit { eng with market_data := m } k h)

theorem stop_limit_stays_pending_witness :
    (∀ p ∈ engF2.portfolios, ∀ o ∈ p.orders, o.id = 1 →
      o.status = OrderStatus.PENDING ∧
      o.order_type = OrderType.STOP_LIMIT) ∧
    (∀ p' ∈ (tickSeq [advMarket, advMarket] engF2).portfolios,
      ∀ o' ∈ p'.orders, o'.id = 1 →
        o'.status = OrderStatus.PENDING ∧
        o'.order_type = OrderType.STOP_LIMIT) := by
  have hh : ∀ p ∈ engF2.portfolios, ∀ o ∈ p.orders, o.id = 1 →
      o.status = OrderStatus.PENDING ∧
      o.order_type = OrderType.STOP_LIMIT := by
    iterate 4
      (try simp [engF2, engD1, engD0, advMarket, mkEngine, create_portfolio,
        place_order, newOrderFor, validate_order, pyTruthy, getPosition,
        replacePortfolio, List.find?]
       <;> try norm_num [engF2, engD1, engD0, advMarket, mkEngine,
        create_portfolio, place_order, newOrderFor, validate_order, pyTruthy,
        getPosition, replacePortfolio, List.find?])
  exact ⟨hh, stop_limit_stays_pending engF2 1 [advMarket, advMarket] hh⟩

/-! ## C9 -/

/-- C9 (code bug): after a committed BUY-then-SELL round trip the positions
carry realized P&L −0.3 and every commission is 0, so the claimed total
(commissions + realized gains) is −0.3 — but `get_portfolio_summary` computes
`total_realized_pnl` as the commission sum alone and reports 0. -/
theorem summary_realized_pnl_commissions_only :
    (get_portfolio_summary engC3 0).1.map (fun s => s.total_realized_pnl)
      = some 0 ∧
    engC3.portfolios.map (fun p =>
        (p.executions.map (fun e => e.commission)).sum
          + (p.positions.map (fun kv => kv.2.realized_pnl)).sum)
      = [-3/10] ∧
    (0 : ℚ) ≠ -3/10 := by
  iterate 8
    (try simp [engC3, engC2, engB1, engA0, mkEngine, create_portfolio, place_order,
      newOrderFor, validate_order, execute_market_order, update_portfolio_position,
      replacePortfolio, MarketDataProvider, pricesA, pyTruthy, getPosition, setPosition,
      syncById, PaperPosition.new, List.find?, get_portfolio_summary,
      update_portfolio_values, abs]
     <;> try norm_num [engC3, engC2, engB1, engA0, mkEngine, create_portfolio, place_order,
      newOrderFor, validate_order, execute_market_order, update_portfolio_position,
      replacePortfolio, MarketDataProvider, pricesA, pyTruthy, getPosition, setPosition,
      syncById, PaperPosition.new, List.find?, get_portfolio_summary,
      update_portfolio_values, abs])

end PaperTrading
